import Mathlib

/-!
Verification of the data-transformation core of the financial-data-explorer
backend: the normalization and rolling-correlation functions of
`backend/src/data_processing.py`, the route logic of `backend/src/app.py`
that drives them, and (modelled from the specification, since the repository
delegates frequency selection to an external API) the resampler.

Dates are embedded as integers (epoch days / timestamps); float64 values are
embedded as exact rationals, so the algebraic laws below are the exact-arithmetic
semantics of the code.
-/

namespace FDE

/-- A row of a pandas DataFrame as used by the processing functions: the index
date (an integer timestamp) together with the values of the data columns. -/
abbrev Row := Int × List ℚ

/-- Shallow embedding of the DataFrames handed to the processing functions:
whether the index is a DatetimeIndex, whether `pd.to_datetime` could convert a
non-datetime index (an environment fact the code probes with try/except), the
number of data columns, and the rows. -/
structure Frame where
  isDatetimeIndex : Bool
  indexConvertible : Bool
  ncols : Nat
  rows : List Row
deriving DecidableEq

/-- Unclassified Python exceptions that can escape the processing functions;
`indexError` is the pandas IndexError raised by `df.iloc[0]` on an empty
frame (or by `.iloc[0]` on an empty first row). -/
inductive PyErr
  | indexError
deriving DecidableEq

/-- The observable outcome of `normalize_series`: the returned frame, the
warnings printed on stdout, whether the returned object is the very input
object (the Python statement `return df`), and whether the call mutated the
input in place (the reassignment `df.index = pd.to_datetime(df.index)`). -/
structure NormOut where
  frame : Frame
  warnings : List String
  aliasesInput : Bool
  mutatedInput : Bool
deriving DecidableEq

/-- Warning printed when the index is not a DatetimeIndex (line 18). -/
def warnNotDatetime : String :=
  "Warning: DataFrame index is not DatetimeIndex. Normalization may not work as expected."

/-- Message printed when the index cannot be converted (line 23). -/
def warnConvertFail : String :=
  "Error: Could not convert index to DatetimeIndex."

/-- Warning printed when the first value is zero (line 30). -/
def warnZeroBase : String :=
  "Warning: First value is 0, cannot index to 100."

/-- Warning printed for an unknown normalization method (line 35). -/
def warnUnknownMethod (method : String) : String :=
  "Warning: Unknown normalization method " ++ method ++ "."

/-- The method dispatch of `normalize_series` (data_processing.py lines 26-36),
reached once the index of `df` is a DatetimeIndex.  `warns` are the warnings
already printed and `mutated` records whether the index had to be converted in
place before the dispatch. -/
def normalizeDispatch (df : Frame) (method : String) (warns : List String)
    (mutated : Bool) : Except PyErr NormOut :=
  if method = "index_100" then
    match df.rows.head? with
    | none => Except.error PyErr.indexError
    | some r =>
      match r.2.head? with
      | none => Except.error PyErr.indexError
      | some v0 =>
        if v0 = 0 then
          Except.ok ⟨df, warns ++ [warnZeroBase], true, mutated⟩
        else
          Except.ok ⟨{ df with rows := df.rows.map fun q => (q.1, q.2.map fun v => v / v0 * 100) },
                     warns, false, mutated⟩
  else
    Except.ok ⟨df, warns ++ [warnUnknownMethod method], true, mutated⟩

/-- Embedding of `normalize_series` (data_processing.py lines 4-36): a
non-datetime index is converted in place when possible (otherwise the original
frame is returned), `index_100` reads the first value and either rescales every
value by `100 / v0` into a fresh frame, or, when `v0 = 0`, returns the original
frame after printing a warning; an unknown method returns the original frame
after printing a warning; an empty frame raises IndexError at `df.iloc[0]`. -/
def normalize_series (df : Frame) (method : String) : Except PyErr NormOut :=
  if df.isDatetimeIndex then
    normalizeDispatch df method [] false
  else if df.indexConvertible then
    normalizeDispatch { df with isDatetimeIndex := true } method [warnNotDatetime] true
  else
    Except.ok ⟨df, [warnNotDatetime, warnConvertFail], true, false⟩

/-- First row of `ys` carrying date `d`; this is how `pd.merge` matches index
values (all indices in play are duplicate-free). -/
def lookupDate (ys : List Row) (d : Int) : Option (List ℚ) :=
  match ys with
  | [] => none
  | r :: rest => if r.1 = d then some r.2 else lookupDate rest d

/-- Inner join on the date index (`pd.merge ... how=inner`, data_processing.py
line 57): keeps the dates of `xs` that also occur in `ys`, concatenating the
data columns of the matched rows. -/
def innerJoin (xs ys : List Row) : List Row :=
  xs.filterMap fun r => (lookupDate ys r.1).map fun vs => (r.1, r.2 ++ vs)

/-- Mean of a list of rationals (with the convention x / 0 = 0 on the empty
list, which never matters: means are only taken of full windows). -/
def qmean (l : List ℚ) : ℚ := l.sum / l.length

/-- Centered sum of squares Σ (x - mean)² of a window.  pandas divides it by
w - 1 to get the sample variance; it vanishes exactly when the window is
constant, which is exactly when the rolling correlation there is NaN. -/
def cssq (l : List ℚ) : ℚ := (l.map fun x => (x - qmean l) ^ 2).sum

/-- Centered cross product Σ (a - mean as)(b - mean bs) of two paired windows. -/
def ccp (as bs : List ℚ) : ℚ :=
  ((as.zip bs).map fun p => (p.1 - qmean as) * (p.2 - qmean bs)).sum

/-- Exact sufficient statistics of one rolling-correlation cell.  The float
coefficient pandas computes is `ccpAB / sqrt (cssqA * cssqB)` (the 1/(w-1)
factors of the sample convention cancel); it is NaN exactly when `cssqA = 0`
or `cssqB = 0`, and those rows are dropped by `dropna`. -/
structure CorrCell where
  ccpAB : ℚ
  cssqA : ℚ
  cssqB : ℚ
deriving DecidableEq

/-- Trailing window of length `w` ending at position `i` (inclusive). -/
def windowAt (l : List ℚ) (i w : Nat) : List ℚ := (l.take (i + 1)).drop (i + 1 - w)

/-- Column `k` of a list of joined rows (`combined_df.iloc[:, k]`). -/
def colAt (rows : List Row) (k : Nat) : List ℚ := rows.map fun r => r.2.getD k 0

/-- Rolling correlation of the first two columns of the joined frame
(data_processing.py line 65) with the NaN rows already dropped (the in-place
`dropna` of line 71): position `i` contributes a row exactly when the trailing
window is full (pandas default min_periods = window) and neither window is
constant. -/
def corrRows (rows : List Row) (w : Nat) : List (Int × CorrCell) :=
  (List.range rows.length).filterMap fun i =>
    if i + 1 < w then none
    else if cssq (windowAt (colAt rows 0) i w) = 0 ∨ cssq (windowAt (colAt rows 1) i w) = 0 then
      none
    else
      some ((rows.map fun r => r.1).getD i 0,
            ⟨ccp (windowAt (colAt rows 0) i w) (windowAt (colAt rows 1) i w),
             cssq (windowAt (colAt rows 0) i w), cssq (windowAt (colAt rows 1) i w)⟩)

/-- Embedding of `calculate_rolling_correlation` (data_processing.py lines
38-73): `None` when an index is not a DatetimeIndex or when the merged frame
does not have exactly two data columns in total, else the NaN-stripped rolling
correlation of the two columns of the date-inner-join. -/
def calculate_rolling_correlation (df1 df2 : Frame) (window : Nat) :
    Option (List (Int × CorrCell)) :=
  if df1.isDatetimeIndex = false ∨ df2.isDatetimeIndex = false then none
  else
    let combined := innerJoin df1.rows df2.rows
    if df1.ncols + df2.ncols ≠ 2 then none
    else some (corrRows combined window)

/-- Responses of the /api/data route (app.py, `get_dataset_data`), restricted
to the states reachable after the catalog lookup. -/
inductive DataResp
  | payload (rows : List Row)
  | noData
  | internalError
deriving DecidableEq

/-- The single-column datetime-indexed frame the routes build from the
database rows (app.py lines 138-142 and 231-239). -/
def mkFrame (rows : List (Int × ℚ)) : Frame :=
  ⟨true, true, 1, rows.map fun r => (r.1, [r.2])⟩

/-- Embedding of the data/transform part of `get_dataset_data` (app.py lines
133-172): 404 on an empty result set; when a transform parameter is present the
frame is passed through `normalize_series` (the `df is None` guard of line 152
is dead since `normalize_series` never returns None, and an escaping exception
is caught by the generic handler of line 177, responding 500); the frame that
comes back is serialized as the 200 payload. -/
def get_dataset_data (rows : List (Int × ℚ)) (transform : Option String) : DataResp :=
  if rows = [] then DataResp.noData
  else
    let df := mkFrame rows
    match transform with
    | none => DataResp.payload df.rows
    | some m =>
      match normalize_series df m with
      | Except.error _ => DataResp.internalError
      | Except.ok out => DataResp.payload out.frame.rows

/-- Responses of the /api/correlation route (app.py, `get_rolling_correlation`),
restricted to the states reachable after the two data queries. -/
inductive CorrResp
  | payload (rows : List (Int × CorrCell))
  | missingData
  | badWindow
  | computationFailed
deriving DecidableEq

/-- Embedding of `get_rolling_correlation` from the window validation on
(app.py lines 241-277), parameterized over the already-built frames: 400 when
the window is at most 1, 500 when the computation returns the None sentinel,
otherwise the (possibly empty) correlation rows as the 200 payload (the
result always has exactly one column, so the shape guard of line 259 passes). -/
def correlationRoute (df1 df2 : Frame) (window : Int) : CorrResp :=
  if window ≤ 1 then CorrResp.badWindow
  else
    match calculate_rolling_correlation df1 df2 window.toNat with
    | none => CorrResp.computationFailed
    | some rows => CorrResp.payload rows

/-- Embedding of `get_rolling_correlation` (app.py lines 184-277): 404 when a
data query comes back empty (line 227), then the window guard and the
computation on the two single-column datetime-indexed frames. -/
def get_rolling_correlation (rows1 rows2 : List (Int × ℚ)) (window : Int) : CorrResp :=
  if rows1 = [] ∨ rows2 = [] then CorrResp.missingData
  else correlationRoute (mkFrame rows1) (mkFrame rows2) window

/-- Modelled from the spec: calendar dates for the Resampler.  The repository
has no resampler of its own under the backend sources (frequency selection is
delegated to the external FRED API via the `frequency` query parameter in
`data_loader.py`), so the component is modelled from the specification:
proleptic Gregorian year, month and day. -/
structure CDate where
  y : Int
  m : Int
  d : Int
deriving DecidableEq

/-- Gregorian leap-year test. -/
def isLeap (y : Int) : Bool := (y % 4 == 0 && y % 100 != 0) || y % 400 == 0

/-- Number of days of month `m` of year `y`. -/
def daysInMonth (y : Int) (m : Int) : Int :=
  if m = 2 then (if isLeap y then 29 else 28)
  else if m = 4 ∨ m = 6 ∨ m = 9 ∨ m = 11 then 30
  else 31

/-- A calendar-valid date. -/
def CDate.valid (x : CDate) : Prop :=
  1 ≤ x.m ∧ x.m ≤ 12 ∧ 1 ≤ x.d ∧ x.d ≤ daysInMonth x.y x.m

instance (x : CDate) : Decidable x.valid := by
  unfold CDate.valid; infer_instance

/-- Days before month `m` in a non-leap year. -/
def cumDays (m : Int) : Int :=
  if m ≤ 1 then 0 else if m = 2 then 31 else if m = 3 then 59 else if m = 4 then 90
  else if m = 5 then 120 else if m = 6 then 151 else if m = 7 then 181
  else if m = 8 then 212 else if m = 9 then 243 else if m = 10 then 273
  else if m = 11 then 304 else 334

/-- Day count of a date in the proleptic Gregorian calendar; day 0 is
January 1 of year 1, a Monday, so a date falls on Sunday exactly when its day
number is congruent to 6 modulo 7. -/
def dayNumber (x : CDate) : Int :=
  365 * (x.y - 1) + ((x.y - 1) / 4 - (x.y - 1) / 100 + (x.y - 1) / 400)
    + cumDays x.m + (if 2 < x.m ∧ isLeap x.y then 1 else 0) + (x.d - 1)

/-- The next calendar day. -/
def nextDay (x : CDate) : CDate :=
  if x.d < daysInMonth x.y x.m then ⟨x.y, x.m, x.d + 1⟩
  else if x.m < 12 then ⟨x.y, x.m + 1, 1⟩
  else ⟨x.y + 1, 1, 1⟩

/-- Advance a date by `n` calendar days. -/
def addDays (x : CDate) : Nat → CDate
  | 0 => x
  | n + 1 => addDays (nextDay x) n

/-- Modelled from the spec: the five resampling rules. -/
inductive Rule
  | daily
  | weekly
  | monthly
  | quarterly
  | annual
deriving DecidableEq

/-- End month of the calendar quarter containing month `m`. -/
def quarterEndMonth (m : Int) : Int := 3 * ((m - 1) / 3) + 3

/-- Modelled from the spec: the end boundary of the period containing `x`
(week ends Sunday; month, quarter and year end on calendar boundaries; each
period is labeled by its end date). -/
def periodEnd : Rule → CDate → CDate
  | Rule.daily, x => x
  | Rule.weekly, x => addDays x ((6 - dayNumber x) % 7).toNat
  | Rule.monthly, x => ⟨x.y, x.m, daysInMonth x.y x.m⟩
  | Rule.quarterly, x => ⟨x.y, quarterEndMonth x.m, daysInMonth x.y (quarterEndMonth x.m)⟩
  | Rule.annual, x => ⟨x.y, 12, 31⟩

/-- Modelled from the spec: the body of the resampler.  The input is ascending,
so the observations of one period are consecutive; the fold keeps, for each
period that contains observations, the last observation of the period, emitting
it at the period-end label `key`. -/
def resampleRun (r : Rule) : CDate → ℚ → List (CDate × ℚ) → List (CDate × ℚ)
  | key, v, [] => [(key, v)]
  | key, v, (d, w) :: rest =>
    if periodEnd r d = key then resampleRun r key w rest
    else (key, v) :: resampleRun r (periodEnd r d) w rest

/-- Modelled from the spec: `resample(series, rule)` — one output observation
per period that contains at least one input observation, labeled by the period
end and valued by the last (latest-dated) observation of the period; periods
with no observation produce no row. -/
def resample (s : List (CDate × ℚ)) (r : Rule) : List (CDate × ℚ) :=
  match s with
  | [] => []
  | (d, v) :: rest => resampleRun r (periodEnd r d) v rest

/-- Adjacent dates of the series are pairwise distinct (a consequence of the
strictly-ascending Series invariant, and all the idempotence law needs). -/
def adjDistinct : List (CDate × ℚ) → Bool
  | (a, _) :: (b, w) :: rest => a != b && adjDistinct ((b, w) :: rest)
  | _ => true

/-- The rows produced by `(df / first_value) * 100`: every value of every
column rescaled by `100 / v0`, dates untouched. -/
def scaledRows (rows : List Row) (v0 : ℚ) : List Row :=
  rows.map fun q => (q.1, q.2.map fun v => v / v0 * 100)

/-! ## Helper lemmas -/

/-- On a datetime-indexed frame whose first value `v0` is nonzero, the
`index_100` path of `normalize_series` rescales every value of every column by
`100 / v0` into a fresh frame, printing nothing. -/
lemma normalize_index100_eq (df : Frame) (h : df.isDatetimeIndex = true)
    (d0 : Int) (v0 : ℚ) (vs : List ℚ) (rest : List Row)
    (hrows : df.rows = (d0, v0 :: vs) :: rest) (hv0 : v0 ≠ 0) :
    normalize_series df "index_100" =
      Except.ok ⟨{ df with rows := scaledRows df.rows v0 }, [], false, false⟩ := by
  unfold normalize_series normalizeDispatch scaledRows
  rw [h, if_pos rfl, if_pos rfl, hrows]
  simp only [List.head?_cons]
  rw [if_neg hv0]

/-- On a datetime-indexed frame whose first value is zero, `normalize_series`
prints the zero-base warning and returns the original frame object. -/
lemma normalize_zero_base_eq (df : Frame) (h : df.isDatetimeIndex = true)
    (d0 : Int) (vs : List ℚ) (rest : List Row)
    (hrows : df.rows = (d0, (0 : ℚ) :: vs) :: rest) :
    normalize_series df "index_100" = Except.ok ⟨df, [warnZeroBase], true, false⟩ := by
  unfold normalize_series normalizeDispatch
  rw [h, if_pos rfl, if_pos rfl, hrows]
  simp only [List.head?_cons]
  simp

/-- On a datetime-indexed frame, any method other than `index_100` prints the
unknown-method warning and returns the original frame object. -/
lemma normalize_unknown_eq (df : Frame) (h : df.isDatetimeIndex = true)
    (m : String) (hm : m ≠ "index_100") :
    normalize_series df m = Except.ok ⟨df, [warnUnknownMethod m], true, false⟩ := by
  unfold normalize_series normalizeDispatch
  rw [h, if_pos rfl, if_neg hm]
  rfl

/-- The first column of the rescaled rows, position by position (with the
out-of-range default 0, which the rescaling also fixes since 0 / v0 * 100 = 0). -/
lemma colAt_scaled (rows : List Row) (v0 : ℚ) :
    ∀ i, (colAt (scaledRows rows v0) 0).getD i 0
      = (colAt rows 0).getD i 0 / v0 * 100 := by
  induction rows with
  | nil => intro i; simp [colAt, scaledRows]
  | cons r rs ih =>
    intro i
    cases i with
    | zero =>
      simp only [colAt, scaledRows, List.map_cons, List.getD_cons_zero]
      cases r.2 with
      | nil => simp
      | cons a l => simp
    | succ n =>
      simpa only [colAt, scaledRows, List.map_cons, List.getD_cons_succ] using ih n

/-- Rescaling by a nonzero base preserves pairwise quotients exactly (with the
x / 0 = 0 convention on both sides when the denominator entry is zero). -/
lemma ratio_cancel (a b v0 : ℚ) (hv0 : v0 ≠ 0) :
    a / v0 * 100 / (b / v0 * 100) = a / b := by
  rcases eq_or_ne b 0 with hb | hb
  · subst hb; simp
  · field_simp
    ring

/-- Length of a filterMap over an initial segment whose hits are exactly the
positions at or beyond a threshold `t`. -/
lemma length_filterMap_range {α : Type} (f : Nat → Option α) (t : Nat) :
    ∀ n, (∀ i, i < n → ((f i).isSome = true ↔ t ≤ i)) →
      ((List.range n).filterMap f).length = n - t := by
  intro n
  induction n with
  | zero => intro _; simp
  | succ n ih =>
    intro h
    rw [List.range_succ, List.filterMap_append, List.length_append,
        ih (fun i hi => h i (Nat.lt_succ_of_lt hi))]
    cases hf : f n with
    | none =>
      have hnt : ¬ t ≤ n := by
        intro hle
        have hs := (h n (Nat.lt_succ_self n)).2 hle
        rw [hf] at hs
        simp at hs
      simp only [List.filterMap_cons, hf, List.filterMap_nil, List.length_nil]
      omega
    | some a =>
      have hnt : t ≤ n := (h n (Nat.lt_succ_self n)).1 (by rw [hf]; rfl)
      simp only [List.filterMap_cons, hf, List.filterMap_nil, List.length_cons, List.length_nil]
      omega

/-- When every full trailing window of the joined columns has nonzero centered
sum of squares, the NaN-dropping removes exactly the first w - 1 positions. -/
lemma corrRows_length (rows : List Row) (w : Nat) (hw : 1 ≤ w)
    (hvar : ∀ i, w ≤ i + 1 → i < rows.length →
        cssq (windowAt (colAt rows 0) i w) ≠ 0 ∧ cssq (windowAt (colAt rows 1) i w) ≠ 0) :
    (corrRows rows w).length = rows.length - (w - 1) := by
  unfold corrRows
  apply length_filterMap_range _ (w - 1) rows.length
  intro i hi
  constructor
  · intro hs
    by_contra hnle
    rw [if_pos (by omega)] at hs
    simp at hs
  · intro hle
    obtain ⟨h1, h2⟩ := hvar i (by omega) hi
    rw [if_neg (by omega), if_neg (by tauto)]
    rfl

/-! ## Claims about the Normalizer -/

/-- C1 (counterexample to the claim as stated): on the series
[(d0, 0), (d1, 5)] the `index_100` normalization does NOT fail — it returns a
result series, namely the original frame unchanged, together with the
zero-base warning print. -/
theorem C1_counterexample :
    normalize_series ⟨true, true, 1, [(0, [0]), (1, [5])]⟩ "index_100"
      = Except.ok ⟨⟨true, true, 1, [(0, [0]), (1, [5])]⟩, [warnZeroBase], true, false⟩ := rfl

/-- C1 (amended): for every non-empty datetime-indexed series whose first value
is 0, `normalize` with method `index_100` does not divide: it prints the
zero-base warning (the DegenerateInput signal) and returns the original series
unchanged as an ordinary result, rather than failing. -/
theorem C1_zero_base_returns_original (df : Frame) (h : df.isDatetimeIndex = true)
    (d0 : Int) (vs : List ℚ) (rest : List Row)
    (hrows : df.rows = (d0, (0 : ℚ) :: vs) :: rest) :
    normalize_series df "index_100" = Except.ok ⟨df, [warnZeroBase], true, false⟩ :=
  normalize_zero_base_eq df h d0 vs rest hrows

/-- C1 witness: the amended statement applied to a concrete two-column frame. -/
theorem C1_witness :
    normalize_series ⟨true, false, 1, [(3, [0, 7]), (4, [5, 8])]⟩ "index_100"
      = Except.ok ⟨⟨true, false, 1, [(3, [0, 7]), (4, [5, 8])]⟩, [warnZeroBase], true, false⟩ :=
  C1_zero_base_returns_original _ rfl 3 [7] [(4, [5, 8])] rfl

/-- C3 (confirmed): for every datetime-indexed series and every method token
other than `index_100`, `normalize_series` returns the original series
unchanged after printing the unknown-method warning, and the /api/data route
serves that original series as a 200 payload instead of aborting the request. -/
theorem C3_unknown_method_passthrough :
    (∀ (df : Frame) (m : String), df.isDatetimeIndex = true → m ≠ "index_100" →
        normalize_series df m = Except.ok ⟨df, [warnUnknownMethod m], true, false⟩) ∧
    (∀ (rows : List (Int × ℚ)) (m : String), rows ≠ [] → m ≠ "index_100" →
        get_dataset_data rows (some m) = DataResp.payload (rows.map fun p => (p.1, [p.2]))) := by
  constructor
  · intro df m h hm
    exact normalize_unknown_eq df h m hm
  · intro rows m hrows hm
    unfold get_dataset_data
    rw [if_neg hrows]
    dsimp only
    rw [normalize_unknown_eq (mkFrame rows) rfl m hm]
    rfl

/-- C3 witness: a concrete unrecognized method token on a concrete series. -/
theorem C3_witness :
    normalize_series ⟨true, true, 1, [(0, [3])]⟩ "pct_change"
      = Except.ok ⟨⟨true, true, 1, [(0, [3])]⟩, [warnUnknownMethod "pct_change"], true, false⟩ ∧
    get_dataset_data [(5, 3)] (some "pct_change") = DataResp.payload [(5, [3])] :=
  ⟨C3_unknown_method_passthrough.1 _ _ rfl (by decide),
   C3_unknown_method_passthrough.2 [(5, 3)] _ (by decide) (by decide)⟩

/-- C4 (confirmed): for every non-empty datetime-indexed series with nonzero
first value v0, `index_100` normalization succeeds with the rescaled rows:
dates unchanged, length unchanged, i-th value equal to value_i / v0 * 100 for
every position, and first output value exactly 100. -/
theorem C4_index100_values (df : Frame) (h : df.isDatetimeIndex = true)
    (d0 : Int) (v0 : ℚ) (vs : List ℚ) (rest : List Row)
    (hrows : df.rows = (d0, v0 :: vs) :: rest) (hv0 : v0 ≠ 0) :
    normalize_series df "index_100"
      = Except.ok ⟨{ df with rows := scaledRows df.rows v0 }, [], false, false⟩ ∧
    (scaledRows df.rows v0).map Prod.fst = df.rows.map Prod.fst ∧
    (scaledRows df.rows v0).length = df.rows.length ∧
    (∀ i, (colAt (scaledRows df.rows v0) 0).getD i 0 = (colAt df.rows 0).getD i 0 / v0 * 100) ∧
    (colAt (scaledRows df.rows v0) 0).getD 0 0 = 100 := by
  refine ⟨normalize_index100_eq df h d0 v0 vs rest hrows hv0, ?_, ?_, colAt_scaled df.rows v0, ?_⟩
  · simp [scaledRows, List.map_map]
  · simp [scaledRows]
  · rw [colAt_scaled df.rows v0 0, hrows]
    simp only [colAt, List.map_cons, List.getD_cons_zero, List.getD_cons_zero]
    rw [div_self hv0, one_mul]

/-- C4 witness: Scenario 1 of the spec, S = [10, 20, 30], with the pointwise
law instantiated at position 2 and the first output value at position 0. -/
theorem C4_witness :
    normalize_series ⟨true, true, 1, [(0, [10]), (1, [20]), (2, [30])]⟩ "index_100"
      = Except.ok ⟨⟨true, true, 1, scaledRows [(0, [10]), (1, [20]), (2, [30])] 10⟩, [], false, false⟩ ∧
    (colAt (scaledRows [(0, [10]), (1, [20]), (2, [30])] 10) 0).getD 2 0
      = (colAt [((0 : Int), [(10 : ℚ)]), (1, [20]), (2, [30])] 0).getD 2 0 / 10 * 100 ∧
    (colAt (scaledRows [(0, [10]), (1, [20]), (2, [30])] 10) 0).getD 0 0 = 100 :=
  ⟨(C4_index100_values ⟨true, true, 1, [(0, [10]), (1, [20]), (2, [30])]⟩ rfl 0 10 []
      [(1, [20]), (2, [30])] rfl (by norm_num)).1,
   (C4_index100_values ⟨true, true, 1, [(0, [10]), (1, [20]), (2, [30])]⟩ rfl 0 10 []
      [(1, [20]), (2, [30])] rfl (by norm_num)).2.2.2.1 2,
   (C4_index100_values ⟨true, true, 1, [(0, [10]), (1, [20]), (2, [30])]⟩ rfl 0 10 []
      [(1, [20]), (2, [30])] rfl (by norm_num)).2.2.2.2⟩

/-- C6 (counterexample to the claim as stated): on the empty series,
`normalize` with method `index_100` does not produce a designated EmptyInput
error result — it raises an unclassified exception, the pandas IndexError of
`df.iloc[0]` (which the /api/data route would only catch as a generic 500). -/
theorem C6_counterexample :
    normalize_series ⟨true, true, 1, []⟩ "index_100" = Except.error PyErr.indexError := rfl

/-- C6 (amended): for every empty datetime-indexed frame, `normalize` with
method `index_100` raises the unclassified IndexError instead of returning a
designated EmptyInput error result. -/
theorem C6_empty_raises_index_error (df : Frame) (h : df.isDatetimeIndex = true)
    (hrows : df.rows = []) :
    normalize_series df "index_100" = Except.error PyErr.indexError := by
  unfold normalize_series normalizeDispatch
  rw [h, if_pos rfl, if_pos rfl, hrows]
  rfl

/-- C6 witness: the amended statement applied to a concrete empty frame. -/
theorem C6_witness :
    normalize_series ⟨true, false, 0, []⟩ "index_100" = Except.error PyErr.indexError :=
  C6_empty_raises_index_error _ rfl rfl

/-- C7 (confirmed): on every non-degenerate datetime-indexed series (non-empty,
nonzero first value), normalization preserves pairwise value quotients exactly:
output_i / output_j = value_i / value_j for all positions i, j (exact rational
arithmetic, with the x / 0 = 0 convention on both sides where a denominator
vanishes). -/
theorem C7_preserves_pairwise_quotients (df : Frame) (h : df.isDatetimeIndex = true)
    (d0 : Int) (v0 : ℚ) (vs : List ℚ) (rest : List Row)
    (hrows : df.rows = (d0, v0 :: vs) :: rest) (hv0 : v0 ≠ 0) :
    normalize_series df "index_100"
      = Except.ok ⟨{ df with rows := scaledRows df.rows v0 }, [], false, false⟩ ∧
    ∀ i j, (colAt (scaledRows df.rows v0) 0).getD i 0 / (colAt (scaledRows df.rows v0) 0).getD j 0
         = (colAt df.rows 0).getD i 0 / (colAt df.rows 0).getD j 0 := by
  refine ⟨normalize_index100_eq df h d0 v0 vs rest hrows hv0, fun i j => ?_⟩
  rw [colAt_scaled df.rows v0 i, colAt_scaled df.rows v0 j]
  exact ratio_cancel _ _ _ hv0

/-- C7 witness: the quotient law instantiated on S = [10, 20, 30] at the
position pair (1, 2). -/
theorem C7_witness :
    normalize_series ⟨true, true, 1, [(0, [10]), (1, [20]), (2, [30])]⟩ "index_100"
      = Except.ok ⟨⟨true, true, 1, scaledRows [(0, [10]), (1, [20]), (2, [30])] 10⟩, [], false, false⟩ ∧
    (colAt (scaledRows [(0, [10]), (1, [20]), (2, [30])] 10) 0).getD 1 0
        / (colAt (scaledRows [(0, [10]), (1, [20]), (2, [30])] 10) 0).getD 2 0
      = (colAt [((0 : Int), [(10 : ℚ)]), (1, [20]), (2, [30])] 0).getD 1 0
        / (colAt [((0 : Int), [(10 : ℚ)]), (1, [20]), (2, [30])] 0).getD 2 0 :=
  ⟨(C7_preserves_pairwise_quotients ⟨true, true, 1, [(0, [10]), (1, [20]), (2, [30])]⟩ rfl 0 10 []
      [(1, [20]), (2, [30])] rfl (by norm_num)).1,
   (C7_preserves_pairwise_quotients ⟨true, true, 1, [(0, [10]), (1, [20]), (2, [30])]⟩ rfl 0 10 []
      [(1, [20]), (2, [30])] rfl (by norm_num)).2 1 2⟩

/-- C9 (counterexample to the claim as stated): the unknown-method fallback
returns the very input object (`aliasesInput = true`), not a freshly
constructed value; and a convertible non-datetime input is mutated in place
(`mutatedInput = true`) by the index reassignment. -/
theorem C9_counterexample :
    normalize_series ⟨true, true, 1, [(0, [2])]⟩ "zscore"
      = Except.ok ⟨⟨true, true, 1, [(0, [2])]⟩, [warnUnknownMethod "zscore"], true, false⟩ ∧
    normalize_series ⟨false, true, 1, [(0, [2]), (1, [3])]⟩ "index_100"
      = Except.ok ⟨⟨true, true, 1, [(0, [100]), (1, [150])]⟩, [warnNotDatetime], false, true⟩ := by
  constructor
  · rfl
  · with_unfolding_all rfl

/-- C9 (amended): with a datetime-indexed input, `normalize_series` never
mutates its input, and whenever its result aliases the input object (the
zero-base and unknown-method fallbacks) the frame is returned unchanged;
the successful `index_100` path returns a freshly constructed frame.
(`calculate_rolling_correlation` builds its result frame anew by merge,
to_frame and dropna, so only the Normalizer can alias its input.) -/
theorem C9_no_mutation_and_alias_only_unchanged :
    (∀ (df : Frame) (m : String) (out : NormOut), df.isDatetimeIndex = true →
        normalize_series df m = Except.ok out →
        out.mutatedInput = false ∧ (out.aliasesInput = true → out.frame = df)) ∧
    (∀ (df : Frame) (d0 : Int) (v0 : ℚ) (vs : List ℚ) (rest : List Row),
        df.isDatetimeIndex = true → df.rows = (d0, v0 :: vs) :: rest → v0 ≠ 0 →
        normalize_series df "index_100"
          = Except.ok ⟨{ df with rows := scaledRows df.rows v0 }, [], false, false⟩) := by
  constructor
  · intro df m out h heq
    unfold normalize_series normalizeDispatch at heq
    rw [h, if_pos rfl] at heq
    split at heq
    · split at heq
      · exact absurd heq (by simp)
      · split at heq
        · exact absurd heq (by simp)
        · split at heq
          · obtain rfl : (⟨df, [] ++ [warnZeroBase], true, false⟩ : NormOut) = out :=
              Except.ok.inj heq
            exact ⟨rfl, fun _ => rfl⟩
          · obtain rfl : _ = out := Except.ok.inj heq
            exact ⟨rfl, fun hc => absurd hc (by simp)⟩
    · obtain rfl : (⟨df, [] ++ [warnUnknownMethod m], true, false⟩ : NormOut) = out :=
        Except.ok.inj heq
      exact ⟨rfl, fun _ => rfl⟩
  · intro df d0 v0 vs rest h hrows hv0
    exact normalize_index100_eq df h d0 v0 vs rest hrows hv0

/-- C9 witness: the no-mutation, alias-is-unchanged statement applied to the
concrete zero-base call, and freshness of a concrete successful call. -/
theorem C9_witness :
    ((⟨⟨true, true, 1, [(0, [0]), (1, [5])]⟩, [warnZeroBase], true, false⟩ : NormOut).mutatedInput = false ∧
      ((⟨⟨true, true, 1, [(0, [0]), (1, [5])]⟩, [warnZeroBase], true, false⟩ : NormOut).aliasesInput = true →
        (⟨⟨true, true, 1, [(0, [0]), (1, [5])]⟩, [warnZeroBase], true, false⟩ : NormOut).frame
          = ⟨true, true, 1, [(0, [0]), (1, [5])]⟩)) ∧
    normalize_series ⟨true, true, 1, [(2, [4]), (3, [6])]⟩ "index_100"
      = Except.ok ⟨⟨true, true, 1, scaledRows [(2, [4]), (3, [6])] 4⟩, [], false, false⟩ :=
  ⟨C9_no_mutation_and_alias_only_unchanged.1 ⟨true, true, 1, [(0, [0]), (1, [5])]⟩ "index_100"
      ⟨⟨true, true, 1, [(0, [0]), (1, [5])]⟩, [warnZeroBase], true, false⟩ rfl rfl,
   C9_no_mutation_and_alias_only_unchanged.2 _ 2 4 [] [(3, [6])] rfl rfl (by norm_num)⟩

/-! ## Claims about the RollingCorrelator -/

/-- C2 (counterexample to the claim as stated): on two series with no common
date, the correlation route does NOT fail — the inner join is empty, the
rolling correlation of the empty join is the empty frame, and the route
returns it as a 200 payload with an empty row list. -/
theorem C2_counterexample :
    get_rolling_correlation [(0, 1)] [(1, 1)] 2 = CorrResp.payload [] := rfl

/-- C2 (amended): a window value at most 1 is rejected by the route with the
400 InvalidArgument response before any computation; but an empty date-join is
not rejected: the computation succeeds and the route returns an empty 200
payload instead of failing with InsufficientData. -/
theorem C2_window_guard_but_empty_join_passes :
    (∀ (rows1 rows2 : List (Int × ℚ)) (w : Int), rows1 ≠ [] → rows2 ≠ [] → w ≤ 1 →
        get_rolling_correlation rows1 rows2 w = CorrResp.badWindow) ∧
    (∀ (rows1 rows2 : List (Int × ℚ)) (w : Int), rows1 ≠ [] → rows2 ≠ [] → 1 < w →
        innerJoin (mkFrame rows1).rows (mkFrame rows2).rows = [] →
        get_rolling_correlation rows1 rows2 w = CorrResp.payload []) := by
  constructor
  · intro rows1 rows2 w h1 h2 hw
    unfold get_rolling_correlation correlationRoute
    rw [if_neg (by simp [h1, h2]), if_pos hw]
  · intro rows1 rows2 w h1 h2 hw hjoin
    unfold get_rolling_correlation correlationRoute calculate_rolling_correlation
    rw [if_neg (by simp [h1, h2]), if_neg (by omega)]
    dsimp only [mkFrame]
    rw [if_neg (by simp)]
    rw [show innerJoin (mkFrame rows1).rows (mkFrame rows2).rows
          = (innerJoin (List.map (fun r => (r.1, [r.2])) rows1)
              (List.map (fun r => (r.1, [r.2])) rows2)) from rfl] at hjoin
    rw [if_neg (by norm_num), hjoin]
    rfl

/-- C2 witness: the window guard at w = 1, and an empty-join payload at w = 3. -/
theorem C2_witness :
    get_rolling_correlation [(0, 1)] [(0, 2)] 1 = CorrResp.badWindow ∧
    get_rolling_correlation [(0, 1)] [(5, 2)] 3 = CorrResp.payload [] :=
  ⟨C2_window_guard_but_empty_join_passes.1 [(0, 1)] [(0, 2)] 1 (by decide) (by decide) (by decide),
   C2_window_guard_but_empty_join_passes.2 [(0, 1)] [(5, 2)] 3 (by decide) (by decide)
     (by decide) rfl⟩

/-- C5 (counterexample to the claim as stated): two identical constant series
with 3 joined dates and window 2 produce an output of length 0, not
max(0, 3 - 2 + 1) = 2 — every full window is constant, its correlation is NaN,
and the NaN rows are dropped. -/
theorem C5_counterexample :
    Option.map List.length (calculate_rolling_correlation (mkFrame [(0, 1), (1, 1), (2, 1)])
        (mkFrame [(0, 1), (1, 1), (2, 1)]) 2) = some 0 ∧
    (innerJoin (mkFrame [(0, 1), (1, 1), (2, 1)]).rows
        (mkFrame [(0, 1), (1, 1), (2, 1)]).rows).length = 3 := by
  constructor
  · with_unfolding_all rfl
  · rfl

/-- C5 (amended): for series frames A and B (datetime-indexed, one value
column each) and window w > 1, whenever every full trailing window of the
joined columns is non-constant in both series, the output length is exactly
joinedLength - (w - 1) in truncated natural subtraction, i.e.
max(0, joinedLength - w + 1): the first w - 1 joined indices produce no output
row and every later index produces exactly one.  (Without the non-constant
proviso, constant windows are dropped as NaN and the output is shorter.) -/
theorem C5_output_length (df1 df2 : Frame) (w : Nat) (hw : 1 < w)
    (h1 : df1.isDatetimeIndex = true) (h2 : df2.isDatetimeIndex = true)
    (hcols : df1.ncols + df2.ncols = 2)
    (hvar : ∀ i, w ≤ i + 1 → i < (innerJoin df1.rows df2.rows).length →
        cssq (windowAt (colAt (innerJoin df1.rows df2.rows) 0) i w) ≠ 0 ∧
        cssq (windowAt (colAt (innerJoin df1.rows df2.rows) 1) i w) ≠ 0) :
    calculate_rolling_correlation df1 df2 w = some (corrRows (innerJoin df1.rows df2.rows) w) ∧
    (corrRows (innerJoin df1.rows df2.rows) w).length
      = (innerJoin df1.rows df2.rows).length - (w - 1) := by
  constructor
  · unfold calculate_rolling_correlation
    rw [if_neg (by simp [h1, h2]), if_neg (by omega)]
  · exact corrRows_length _ w (by omega) hvar

/-- C5 witness: two strictly monotone 4-point series with window 3 — join
length 4, output length 2 = 4 - (3 - 1). -/
theorem C5_witness :
    calculate_rolling_correlation (mkFrame [(0, 1), (1, 2), (2, 4), (3, 8)])
        (mkFrame [(0, 2), (1, 3), (2, 5), (3, 7)]) 3
      = some (corrRows (innerJoin (mkFrame [(0, 1), (1, 2), (2, 4), (3, 8)]).rows
          (mkFrame [(0, 2), (1, 3), (2, 5), (3, 7)]).rows) 3) ∧
    (corrRows (innerJoin (mkFrame [(0, 1), (1, 2), (2, 4), (3, 8)]).rows
        (mkFrame [(0, 2), (1, 3), (2, 5), (3, 7)]).rows) 3).length
      = (innerJoin (mkFrame [(0, 1), (1, 2), (2, 4), (3, 8)]).rows
          (mkFrame [(0, 2), (1, 3), (2, 5), (3, 7)]).rows).length - (3 - 1) :=
  C5_output_length _ _ 3 (by norm_num) rfl rfl rfl (by
    intro i hwi hilen
    have hj : innerJoin (mkFrame [(0, 1), (1, 2), (2, 4), (3, 8)]).rows
        (mkFrame [(0, 2), (1, 3), (2, 5), (3, 7)]).rows
        = [(0, [1, 2]), (1, [2, 3]), (2, [4, 5]), (3, [8, 7])] := rfl
    rw [hj] at hilen ⊢
    simp only [List.length_cons, List.length_nil] at hilen
    have hlo : 2 ≤ i := by omega
    have hhi : i ≤ 3 := by omega
    interval_cases i
    · constructor <;> norm_num [colAt, windowAt, cssq, qmean]
    · constructor <;> norm_num [colAt, windowAt, cssq, qmean])

/-- C10 (counterexample to the claim as stated): a pair of datetime-indexed
frames where the first series contributes no value column at all (so the join
certainly does not yield exactly one value column per series) but the total
column count is still 2 — the function does not return None; it correlates the
two columns of the second frame. -/
theorem C10_counterexample :
    (calculate_rolling_correlation ⟨true, true, 0, [(0, [])]⟩
        ⟨true, true, 2, [(0, [1, 2]), (1, [2, 3]), (2, [5, 4])]⟩ 2).isSome = true := by
  with_unfolding_all rfl

/-- C10 (amended): whenever at least one input frame lacks a DatetimeIndex, or
the total number of value columns of the two frames differs from 2 (through the
API this means one column per series), `calculate_rolling_correlation` returns
the None sentinel without raising, and the route maps that None to the 500
ComputationFailed response. -/
theorem C10_none_sentinel_maps_to_500 (df1 df2 : Frame) (w : Int) (hw : 1 < w)
    (h : df1.isDatetimeIndex = false ∨ df2.isDatetimeIndex = false ∨ df1.ncols + df2.ncols ≠ 2) :
    calculate_rolling_correlation df1 df2 w.toNat = none ∧
    correlationRoute df1 df2 w = CorrResp.computationFailed := by
  have hnone : calculate_rolling_correlation df1 df2 w.toNat = none := by
    unfold calculate_rolling_correlation
    rcases h with h | h | h
    · rw [if_pos (Or.inl h)]
    · rw [if_pos (Or.inr h)]
    · split
      · rfl
      · simp [h]
  refine ⟨hnone, ?_⟩
  unfold correlationRoute
  rw [if_neg (by omega), hnone]

/-- C10 witness: a non-datetime-indexed first frame with window 5. -/
theorem C10_witness :
    calculate_rolling_correlation ⟨false, true, 1, [(0, [1])]⟩ (mkFrame [(0, 2)]) (5 : Int).toNat
      = none ∧
    correlationRoute ⟨false, true, 1, [(0, [1])]⟩ (mkFrame [(0, 2)]) 5
      = CorrResp.computationFailed :=
  C10_none_sentinel_maps_to_500 _ _ 5 (by decide) (Or.inl rfl)

/-! ## Calendar lemmas for the Resampler -/

/-- Every month has at least 28 days. -/
lemma daysInMonth_pos (y m : Int) : 28 ≤ daysInMonth y m := by
  unfold daysInMonth
  split
  · split <;> omega
  · split <;> omega

/-- The successor of a valid date is valid. -/
lemma nextDay_valid (x : CDate) (hx : x.valid) : (nextDay x).valid := by
  obtain ⟨hm1, hm2, hd1, hd2⟩ := hx
  unfold nextDay
  split
  · refine ⟨?_, ?_, ?_, ?_⟩ <;> dsimp only <;> omega
  · split
    · have := daysInMonth_pos x.y (x.m + 1)
      refine ⟨?_, ?_, ?_, ?_⟩ <;> dsimp only <;> omega
    · have := daysInMonth_pos (x.y + 1) 1
      refine ⟨?_, ?_, ?_, ?_⟩ <;> dsimp only <;> omega

/-- The day count advances by exactly one across every valid date's successor,
including month and year rollovers. -/
lemma dayNumber_nextDay (x : CDate) (hx : x.valid) : dayNumber (nextDay x) = dayNumber x + 1 := by
  obtain ⟨y, m, d⟩ := x
  obtain ⟨hm1, hm2, hd1, hd2⟩ := hx
  simp only at hm1 hm2 hd1 hd2
  unfold nextDay
  split
  · simp only [dayNumber]
    ring
  · split
    · rename_i hdlt hmlt
      simp only at hdlt hmlt
      have hd : d = daysInMonth y m := by omega
      have hm11 : m ≤ 11 := by omega
      interval_cases m <;>
        by_cases hL : isLeap y = true <;>
          simp [dayNumber, cumDays, daysInMonth, hL] at hd ⊢ <;> omega
    · rename_i hdlt hmlt
      simp only at hdlt hmlt
      have hm : m = 12 := by omega
      subst hm
      have hdim : daysInMonth y 12 = 31 := by norm_num [daysInMonth]
      have hd : d = 31 := by omega
      subst hd
      by_cases hL : isLeap y = true
      · have hL' : (y % 4 = 0 ∧ y % 100 ≠ 0) ∨ y % 400 = 0 := by
          simpa [isLeap, Bool.or_eq_true, Bool.and_eq_true, decide_eq_true_eq,
                 bne_iff_ne] using hL
        simp [dayNumber, cumDays, hL]
        omega
      · have hL' : ¬ ((y % 4 = 0 ∧ y % 100 ≠ 0) ∨ y % 400 = 0) := by
          simpa [isLeap, Bool.or_eq_true, Bool.and_eq_true, decide_eq_true_eq,
                 bne_iff_ne] using hL
        simp [dayNumber, cumDays, hL]
        omega

/-- Advancing a valid date by `n` days keeps it valid and advances the day
count by exactly `n`. -/
lemma addDays_spec : ∀ (n : Nat) (x : CDate), x.valid →
    (addDays x n).valid ∧ dayNumber (addDays x n) = dayNumber x + n := by
  intro n
  induction n with
  | zero => intro x hx; exact ⟨hx, by simp [addDays]⟩
  | succ n ih =>
    intro x hx
    have h1 := nextDay_valid x hx
    have h2 := dayNumber_nextDay x hx
    have h3 := ih (nextDay x) h1
    refine ⟨h3.1, ?_⟩
    have heq : addDays x (n + 1) = addDays (nextDay x) n := rfl
    rw [heq, h3.2, h2]
    push_cast
    ring

/-- The quarter-end month map is idempotent. -/
lemma quarterEndMonth_idem (m : Int) : quarterEndMonth (quarterEndMonth m) = quarterEndMonth m := by
  unfold quarterEndMonth
  omega

/-- The quarter-end month of a calendar month is a calendar month. -/
lemma quarterEndMonth_bounds (m : Int) (h1 : 1 ≤ m) (h2 : m ≤ 12) :
    1 ≤ quarterEndMonth m ∧ quarterEndMonth m ≤ 12 := by
  unfold quarterEndMonth
  omega

/-- Period ends of valid dates are valid. -/
lemma periodEnd_valid (r : Rule) (x : CDate) (hx : x.valid) : (periodEnd r x).valid := by
  obtain ⟨hm1, hm2, hd1, hd2⟩ := hx
  cases r with
  | daily => exact ⟨hm1, hm2, hd1, hd2⟩
  | weekly => exact (addDays_spec _ x ⟨hm1, hm2, hd1, hd2⟩).1
  | monthly =>
    have := daysInMonth_pos x.y x.m
    refine ⟨?_, ?_, ?_, ?_⟩ <;> dsimp only [periodEnd] <;> omega
  | quarterly =>
    obtain ⟨hq1, hq2⟩ := quarterEndMonth_bounds x.m hm1 hm2
    have := daysInMonth_pos x.y (quarterEndMonth x.m)
    refine ⟨?_, ?_, ?_, ?_⟩ <;> dsimp only [periodEnd] <;> omega
  | annual =>
    have h31 : daysInMonth x.y 12 = 31 := by norm_num [daysInMonth]
    refine ⟨?_, ?_, ?_, ?_⟩ <;> dsimp only [periodEnd] <;> omega

/-- The period-end map of every rule is idempotent on valid dates: a period
end is the end of its own period. -/
lemma periodEnd_idem (r : Rule) (x : CDate) (hx : x.valid) :
    periodEnd r (periodEnd r x) = periodEnd r x := by
  cases r with
  | daily => rfl
  | weekly =>
    have h := addDays_spec ((6 - dayNumber x) % 7).toNat x hx
    show addDays (addDays x ((6 - dayNumber x) % 7).toNat)
        ((6 - dayNumber (addDays x ((6 - dayNumber x) % 7).toNat)) % 7).toNat
      = addDays x ((6 - dayNumber x) % 7).toNat
    rw [h.2]
    have hcast : (↑((6 - dayNumber x) % 7).toNat : Int) = (6 - dayNumber x) % 7 :=
      Int.toNat_of_nonneg (Int.emod_nonneg _ (by norm_num))
    rw [hcast]
    have hk : (6 - (dayNumber x + (6 - dayNumber x) % 7)) % 7 = 0 := by omega
    rw [hk]
    rfl
  | monthly => rfl
  | quarterly =>
    show (⟨x.y, quarterEndMonth (quarterEndMonth x.m),
            daysInMonth x.y (quarterEndMonth (quarterEndMonth x.m))⟩ : CDate)
      = ⟨x.y, quarterEndMonth x.m, daysInMonth x.y (quarterEndMonth x.m)⟩
    rw [quarterEndMonth_idem]
  | annual => rfl

/-! ## Structure of the resampler output -/

/-- The fold always emits its pending key first. -/
lemma run_head (r : Rule) : ∀ (rest : List (CDate × ℚ)) (k : CDate) (v : ℚ),
    ∃ v' tail, resampleRun r k v rest = (k, v') :: tail := by
  intro rest
  induction rest with
  | nil => intro k v; exact ⟨v, [], rfl⟩
  | cons p rest ih =>
    intro k v
    obtain ⟨d, w⟩ := p
    simp only [resampleRun]
    split
    · exact ih k w
    · exact ⟨v, _, rfl⟩

/-- Every date emitted by the fold is a fixed point of the period-end map,
provided the pending key is and the remaining input dates are valid. -/
lemma run_keysFixed (r : Rule) : ∀ (rest : List (CDate × ℚ)) (k : CDate) (v : ℚ),
    periodEnd r k = k → (∀ p ∈ rest, CDate.valid p.1) →
    ∀ q ∈ resampleRun r k v rest, periodEnd r q.1 = q.1 := by
  intro rest
  induction rest with
  | nil =>
    intro k v hk _ q hq
    simp only [resampleRun, List.mem_singleton] at hq
    rw [hq]
    exact hk
  | cons p rest ih =>
    intro k v hk hvalid q hq
    obtain ⟨d, w⟩ := p
    have hdvalid : CDate.valid d := hvalid (d, w) (by simp)
    simp only [resampleRun] at hq
    split at hq
    · exact ih k w hk (fun p hp => hvalid p (List.mem_cons_of_mem _ hp)) q hq
    · rcases List.mem_cons.1 hq with hq | hq
      · rw [hq]
        exact hk
      · exact ih (periodEnd r d) w (periodEnd_idem r d hdvalid)
          (fun p hp => hvalid p (List.mem_cons_of_mem _ hp)) q hq

/-- Adjacent dates emitted by the fold are pairwise distinct. -/
lemma run_adjDistinct (r : Rule) : ∀ (rest : List (CDate × ℚ)) (k : CDate) (v : ℚ),
    adjDistinct (resampleRun r k v rest) = true := by
  intro rest
  induction rest with
  | nil => intro k v; rfl
  | cons p rest ih =>
    intro k v
    obtain ⟨d, w⟩ := p
    simp only [resampleRun]
    split
    · exact ih k w
    · rename_i hne
      obtain ⟨v', tail, heq⟩ := run_head r rest (periodEnd r d) w
      rw [heq]
      have h2 : adjDistinct ((periodEnd r d, v') :: tail) = true := by
        rw [← heq]
        exact ih (periodEnd r d) w
      simp only [adjDistinct, h2, Bool.and_true, bne_iff_ne, ne_eq]
      exact fun hcon => hne hcon.symm

/-- On a list whose dates are period-end fixed points with distinct adjacent
dates, the fold is the identity (no merging happens). -/
lemma run_id (r : Rule) : ∀ (rest : List (CDate × ℚ)) (k : CDate) (v : ℚ),
    periodEnd r k = k → (∀ p ∈ rest, periodEnd r p.1 = p.1) →
    adjDistinct ((k, v) :: rest) = true →
    resampleRun r k v rest = (k, v) :: rest := by
  intro rest
  induction rest with
  | nil => intro k v _ _ _; rfl
  | cons p rest ih =>
    intro k v hk hfix hadj
    obtain ⟨d, w⟩ := p
    have hd : periodEnd r d = d := hfix (d, w) (by simp)
    simp only [adjDistinct, Bool.and_eq_true, bne_iff_ne, ne_eq] at hadj
    simp only [resampleRun]
    rw [if_neg (by rw [hd]; exact fun hcon => hadj.1 hcon.symm)]
    congr 1
    rw [hd]
    exact ih d w hd (fun p hp => hfix p (List.mem_cons_of_mem _ hp)) hadj.2

/-- The output of `resample` on valid dates has period-end-fixed dates and
distinct adjacent dates. -/
lemma resample_output_wf (r : Rule) (s : List (CDate × ℚ))
    (hvalid : ∀ p ∈ s, CDate.valid p.1) :
    (∀ q ∈ resample s r, periodEnd r q.1 = q.1) ∧ adjDistinct (resample s r) = true := by
  cases s with
  | nil => exact ⟨by simp [resample], rfl⟩
  | cons p rest =>
    obtain ⟨d, v⟩ := p
    have hd : CDate.valid d := hvalid (d, v) (by simp)
    exact ⟨run_keysFixed r rest (periodEnd r d) v (periodEnd_idem r d hd)
        (fun p hp => hvalid p (List.mem_cons_of_mem _ hp)),
      run_adjDistinct r rest (periodEnd r d) v⟩

/-- `resample` is the identity on a list whose dates are period-end fixed
points with distinct adjacent dates. -/
lemma resample_of_fixed (r : Rule) (l : List (CDate × ℚ))
    (hfix : ∀ q ∈ l, periodEnd r q.1 = q.1) (hadj : adjDistinct l = true) :
    resample l r = l := by
  cases l with
  | nil => rfl
  | cons p rest =>
    obtain ⟨k, v⟩ := p
    have hk : periodEnd r k = k := hfix (k, v) (by simp)
    show resampleRun r (periodEnd r k) v rest = (k, v) :: rest
    rw [hk]
    exact run_id r rest k v hk (fun p hp => hfix p (List.mem_cons_of_mem _ hp)) hadj

/-- C8 (confirmed, modelled from the spec): resampling is idempotent at a
fixed rule — for every series with valid dates and every rule,
resample(resample(S, r), r) = resample(S, r); and resample at the Daily rule
on already-daily data (adjacent dates distinct) returns the series unchanged. -/
theorem C8_resample_idempotent :
    (∀ (s : List (CDate × ℚ)) (r : Rule), (∀ p ∈ s, CDate.valid p.1) →
        resample (resample s r) r = resample s r) ∧
    (∀ s : List (CDate × ℚ), adjDistinct s = true → resample s Rule.daily = s) := by
  constructor
  · intro s r hvalid
    obtain ⟨hfix, hadj⟩ := resample_output_wf r s hvalid
    exact resample_of_fixed r _ hfix hadj
  · intro s hadj
    exact resample_of_fixed Rule.daily s (fun q _ => rfl) hadj

/-- C8 witness: idempotence on a concrete monthly resample spanning two months,
and the daily identity on a concrete already-daily series. -/
theorem C8_witness :
    resample (resample [(⟨2020, 1, 1⟩, (1 : ℚ)), (⟨2020, 1, 15⟩, 2), (⟨2020, 2, 3⟩, 5)]
        Rule.monthly) Rule.monthly
      = resample [(⟨2020, 1, 1⟩, (1 : ℚ)), (⟨2020, 1, 15⟩, 2), (⟨2020, 2, 3⟩, 5)] Rule.monthly ∧
    resample [(⟨2021, 3, 1⟩, (7 : ℚ)), (⟨2021, 3, 2⟩, 8)] Rule.daily
      = [(⟨2021, 3, 1⟩, (7 : ℚ)), (⟨2021, 3, 2⟩, 8)] :=
  ⟨C8_resample_idempotent.1 _ Rule.monthly (by decide),
   C8_resample_idempotent.2 _ (by decide)⟩

end FDE
